import Mathlib

/-!
Verification development for the rnote rendering core
(`rnote-engine/src/render.rs` and the legacy `src/render.rs`).

Floating point numbers (`f64`) are modelled by the type `F`: a rational
value for every finite double, plus the special values `inf`, `ninf` and
`nan`.  The arithmetic on the concrete inputs appearing in this file is
exact, so the rational model coincides with the IEEE computation there;
the special values follow the IEEE propagation rules.
-/

/-- Model of an `f64` value: a finite rational, or one of the IEEE special
values positive infinity, negative infinity, NaN. -/
inductive F where
  | fin : ℚ → F
  | inf : F
  | ninf : F
  | nan : F
deriving DecidableEq, Repr

/-- Whether the value is finite (mirrors `f64::is_finite`). -/
def F.isFinite : F → Bool
  | .fin _ => true
  | _ => false

/-- IEEE `<` comparison: any comparison with NaN is false. -/
def F.lt : F → F → Bool
  | .nan, _ => false
  | _, .nan => false
  | .ninf, .ninf => false
  | .ninf, _ => true
  | _, .ninf => false
  | .inf, _ => false
  | _, .inf => true
  | .fin a, .fin b => decide (a < b)

/-- IEEE negation. -/
def F.neg : F → F
  | .fin a => .fin (-a)
  | .inf => .ninf
  | .ninf => .inf
  | .nan => .nan

/-- IEEE addition (exact on the finite values used here). -/
def F.add : F → F → F
  | .nan, _ => .nan
  | _, .nan => .nan
  | .fin a, .fin b => .fin (a + b)
  | .inf, .ninf => .nan
  | .ninf, .inf => .nan
  | .inf, _ => .inf
  | _, .inf => .inf
  | .ninf, _ => .ninf
  | _, .ninf => .ninf

/-- IEEE subtraction, as addition of the negation. -/
def F.sub (a b : F) : F := a.add b.neg

/-- IEEE multiplication (exact on the finite values used here);
`0 × ∞ = NaN`. -/
def F.mul : F → F → F
  | .nan, _ => .nan
  | _, .nan => .nan
  | .fin a, .fin b => .fin (a * b)
  | .inf, .inf => .inf
  | .inf, .ninf => .ninf
  | .ninf, .inf => .ninf
  | .ninf, .ninf => .inf
  | .inf, .fin b => if 0 < b then .inf else if b < 0 then .ninf else .nan
  | .fin a, .inf => if 0 < a then .inf else if a < 0 then .ninf else .nan
  | .ninf, .fin b => if 0 < b then .ninf else if b < 0 then .inf else .nan
  | .fin a, .ninf => if 0 < a then .ninf else if a < 0 then .inf else .nan

/-- `f64::floor`; special values are fixed points. -/
def F.floor : F → F
  | .fin a => .fin (⌊a⌋ : ℤ)
  | x => x

/-- `f64::ceil`; special values are fixed points. -/
def F.ceil : F → F
  | .fin a => .fin (⌈a⌉ : ℤ)
  | x => x

/-- `f64::round` on rationals: round half away from zero. -/
def roundQ (q : ℚ) : ℤ := if 0 ≤ q then ⌊q + 1/2⌋ else ⌈q - 1/2⌉

/-- `f64::round`; special values are fixed points. -/
def F.round : F → F
  | .fin a => .fin (roundQ a : ℤ)
  | x => x

/-- Rust `as u32` cast from `f64`: truncate toward zero, saturate at the
type bounds, NaN casts to 0. -/
def F.toU32 : F → ℕ
  | .fin q => if q ≤ 0 then 0 else min (⌊q⌋.toNat) (2 ^ 32 - 1)
  | .inf => 2 ^ 32 - 1
  | _ => 0

/-- Rust `f64::min` semantics: NaN is ignored (the other operand is
returned).  Modelled from the spec: used for the axis-aligned bounding
union, which the spec states is commutative. -/
def F.fmin : F → F → F
  | .nan, b => b
  | a, .nan => a
  | .ninf, _ => .ninf
  | _, .ninf => .ninf
  | .inf, b => b
  | a, .inf => a
  | .fin a, .fin b => .fin (min a b)

/-- Rust `f64::max` semantics: NaN is ignored. -/
def F.fmax : F → F → F
  | .nan, b => b
  | a, .nan => a
  | .inf, _ => .inf
  | _, .inf => .inf
  | .ninf, b => b
  | a, .ninf => a
  | .fin a, .fin b => .fin (max a b)

/-- An axis-aligned bounding box (`p2d::bounding_volume::Aabb`), with the
two corner points stored componentwise. -/
structure Aabb where
  minsX : F
  minsY : F
  maxsX : F
  maxsY : F
deriving DecidableEq, Repr

/-- Extent of the box along the x axis (`maxs - mins`). -/
def Aabb.extentsX (b : Aabb) : F := b.maxsX.sub b.minsX

/-- Extent of the box along the y axis. -/
def Aabb.extentsY (b : Aabb) : F := b.maxsY.sub b.minsY

/-- Modelled from the spec: `AabbHelpers::ensure_positive` from
`rnote-compose` (not under `src/`) forces non-negative extents by
swapping a min/max pair that is in the wrong order on each axis. -/
def Aabb.ensure_positive (b : Aabb) : Aabb :=
  let b1 :=
    if F.lt b.maxsX b.minsX then
      { b with minsX := b.maxsX, maxsX := b.minsX }
    else b
  if F.lt b1.maxsY b1.minsY then
    { b1 with minsY := b1.maxsY, maxsY := b1.minsY }
  else b1

/-- Modelled from the spec: `AabbHelpers::ceil` from `rnote-compose`
(not under `src/`) rounds the box outward to the next integer
boundaries, so the extents round up ("round up to the next integer
boundary", spec §4.4 step 2). -/
def Aabb.ceil (b : Aabb) : Aabb :=
  { minsX := b.minsX.floor, minsY := b.minsY.floor
    maxsX := b.maxsX.ceil, maxsY := b.maxsY.ceil }

/-- `BoundingVolume::loosened` from `parry2d` (not under `src/`),
modelled from the spec: expand by the margin on all sides. -/
def Aabb.loosened (b : Aabb) (m : F) : Aabb :=
  { minsX := b.minsX.sub m, minsY := b.minsY.sub m
    maxsX := b.maxsX.add m, maxsY := b.maxsY.add m }

/-- Modelled from the spec: `AabbHelpers::assert_valid` from
`rnote-compose` (not under `src/`) succeeds iff the bounds are finite
and non-degenerate (spec §3 and §7: "non-finite bounds", "degenerate
... rasterization target"). -/
def Aabb.assert_validb (b : Aabb) : Bool :=
  b.minsX.isFinite && b.minsY.isFinite && b.maxsX.isFinite && b.maxsY.isFinite &&
    F.lt (F.fin 0) b.extentsX && F.lt (F.fin 0) b.extentsY

/-- `BoundingVolume::merge` from `parry2d` (not under `src/`), modelled
from the spec: componentwise min of the min corners and max of the max
corners (axis-aligned bounding union). -/
def Aabb.merge (a b : Aabb) : Aabb :=
  { minsX := F.fmin a.minsX b.minsX, minsY := F.fmin a.minsY b.minsY
    maxsX := F.fmax a.maxsX b.maxsX, maxsY := F.fmax a.maxsY b.maxsY }

/-- `convert_image_bgra_to_rgba` (render.rs:640): for each complete
4-byte group swap bytes 0 and 2; a trailing remainder of fewer than 4
bytes is left unchanged (`chunks_exact_mut`). -/
def convert_image_bgra_to_rgba (_width _height : ℕ) (bytes : List UInt8) : List UInt8 :=
  match bytes with
  | b :: g :: r :: a :: rest => r :: g :: b :: a :: convert_image_bgra_to_rgba _width _height rest
  | rest => rest

/-- The single supported memory format (render.rs:38). -/
inductive ImageMemoryFormat where
  | R8g8b8a8Premultiplied
deriving DecidableEq, Repr

/-- A bitmap image (`Image`, render.rs:80).  The document-space target
`Rectangle` is represented by its axis-aligned bounds `rect`, which is
all this file observes of it (via `rect.bounds()`); modelled from the
spec §3: the target rectangle's bounds must be finite and
non-degenerate. -/
structure Image where
  data : List UInt8
  rect : Aabb
  pixel_width : ℕ
  pixel_height : ℕ
  memory_format : ImageMemoryFormat
deriving DecidableEq, Repr

/-- `Image::assert_valid` (render.rs:180): first validates the target
rectangle's bounds, then requires nonzero dimensions and the buffer
length check.  The length comparison is performed in `u32`: the `usize`
buffer length is truncated (`as u32`) and `4 * pixel_width *
pixel_height` is computed with wrapping `u32` multiplication, i.e. both
sides are taken mod `2^32`. -/
def Image.assert_valid (img : Image) : Bool :=
  img.rect.assert_validb &&
    !(img.pixel_width == 0 || img.pixel_height == 0 ||
      img.data.length % 2 ^ 32 != 4 * img.pixel_width * img.pixel_height % 2 ^ 32)

/-- A vector fragment (`Svg`, render.rs:469). -/
structure Svg where
  svg_data : String
  bounds : Aabb
deriving DecidableEq, Repr

/-- `Svg::merge` (render.rs:479): for each fragment in iteration order,
append a newline and its markup, and union the bounds. -/
def Svg.merge (s : Svg) (other : List Svg) : Svg :=
  other.foldl
    (fun acc o =>
      { svg_data := acc.svg_data ++ "\n" ++ o.svg_data
        bounds := acc.bounds.merge o.bounds })
    s

/-- `Svg::simplify` (render.rs:604), with the external collaborators
abstracted as function parameters: `remove_header` models
`rnote_compose::utils::remove_xml_header`, `wrap` models
`rnote_compose::utils::wrap_svg_root` (arguments: markup, bounds,
viewbox, preserve-aspect-ratio), and `usvg_roundtrip` models
`usvg::Tree::from_str` followed by `convert_text` and
`to_string` (`none` = parse failure).  Returns the post-state of the
fragment together with a success flag; the source assigns `svg_data`
and `bounds` only after the fallible parse succeeded. -/
def Svg.simplify (remove_header : String → String)
    (wrap : String → Option Aabb → Option Aabb → Bool → String)
    (usvg_roundtrip : String → Option String) (s : Svg) : Svg × Bool :=
  let simplified_bounds : Aabb :=
    { minsX := F.fin 0, minsY := F.fin 0
      maxsX := s.bounds.extentsX, maxsY := s.bounds.extentsY }
  let wrapped_svg_data :=
    wrap (remove_header s.svg_data) (some simplified_bounds) (some s.bounds) false
  match usvg_roundtrip wrapped_svg_data with
  | none => (s, false)
  | some out => ({ svg_data := remove_header out, bounds := simplified_bounds }, true)

/-- Error cases of the rasterization pipeline (anyhow errors in the
source, distinguished here by their origin). -/
inductive RenderError where
  | invalidBounds
  | surfaceCreateFailed
  | renderFailed
deriving DecidableEq, Repr

/-- External collaborators of `Image::gen_image_from_svg`: whether
`cairo::ImageSurface::create` succeeds for the given pixel dimensions,
whether the librsvg loading/rendering/data-access steps succeed, and
the bytes captured from the surface for the given dimensions. -/
structure RenderEnv where
  surfaceOk : ℕ → ℕ → Bool
  renderOk : Bool
  capture : ℕ → ℕ → List UInt8

deriving instance DecidableEq for Except

/-- Result of a `gen_image_from_svg` run, together with a trace of the
bounds arguments handed to the external collaborators: `wrapArgBounds`
and `wrapArgViewbox` are the two bounds arguments passed to
`rnote_compose::utils::wrap_svg_root` (render.rs:302), and
`renderTarget` is the `cairo::Rectangle` (x, y, width, height) passed
to `render_document` (render.rs:347) when that call is reached. -/
structure GenResult where
  result : Except RenderError Image
  wrapArgBounds : Option Aabb
  wrapArgViewbox : Option Aabb
  renderTarget : Option (F × F × F × F)
deriving DecidableEq, Repr

/-- Bounds normalization performed by `gen_image_from_svg`
(render.rs:309) and `gen_with_cairo` (render.rs:395): force
non-negative extents, round outward to integer boundaries, then expand
by a 1-unit margin on all sides. -/
def normalize_bounds (bounds : Aabb) : Aabb :=
  (bounds.ensure_positive.ceil).loosened (F.fin 1)

/-- `width_scaled` (render.rs:313): `(extents[0] * image_scale).round() as u32`. -/
def scaled_width (b : Aabb) (image_scale : F) : ℕ :=
  ((b.extentsX.mul image_scale).round).toU32

/-- `height_scaled` (render.rs:314). -/
def scaled_height (b : Aabb) (image_scale : F) : ℕ :=
  ((b.extentsY.mul image_scale).round).toU32

/-- `Image::gen_image_from_svg` (render.rs:297): wrap the fragment
using the ORIGINAL bounds (the wrap happens at render.rs:302, before
the normalization at render.rs:309 mutates `bounds`), normalize the
bounds, validate them, compute the scaled pixel dimensions, create the
surface, render targeting the normalized bounds rectangle, and package
the captured surface bytes (converted BGRA→RGBA) into an `Image` whose
rectangle is the normalized bounds.  The wrapped markup string itself
is not modelled (it is only handed to the external renderer); the
bounds arguments of the wrap call are recorded in the trace. -/
def Image.gen_image_from_svg (env : RenderEnv) (_svg : Svg) (bounds : Aabb)
    (image_scale : F) : GenResult :=
  let wrapArgB := some bounds
  let wrapArgV := some bounds
  let b2 := normalize_bounds bounds
  if b2.assert_validb then
    let width_scaled := scaled_width b2 image_scale
    let height_scaled := scaled_height b2 image_scale
    if env.surfaceOk width_scaled height_scaled then
      if env.renderOk then
        { result := .ok
            { data := convert_image_bgra_to_rgba width_scaled height_scaled
                (env.capture width_scaled height_scaled)
              rect := b2
              pixel_width := width_scaled
              pixel_height := height_scaled
              memory_format := .R8g8b8a8Premultiplied }
          wrapArgBounds := wrapArgB
          wrapArgViewbox := wrapArgV
          renderTarget := some (b2.minsX, b2.minsY, b2.extentsX, b2.extentsY) }
      else
        { result := .error .renderFailed
          wrapArgBounds := wrapArgB
          wrapArgViewbox := wrapArgV
          renderTarget := some (b2.minsX, b2.minsY, b2.extentsX, b2.extentsY) }
    else
      { result := .error .surfaceCreateFailed
        wrapArgBounds := wrapArgB
        wrapArgViewbox := wrapArgV
        renderTarget := none }
  else
    { result := .error .invalidBounds
      wrapArgBounds := wrapArgB
      wrapArgViewbox := wrapArgV
      renderTarget := none }

/-- `geometry::aabb_to_graphene_rect` from the legacy crate (not under
`src/`), modelled from the spec: a rectangle is the min corner together
with the extents. -/
def aabb_to_graphene_rect (aabb : Aabb) : F × F × F × F :=
  (aabb.minsX, aabb.minsY, aabb.extentsX, aabb.extentsY)

/-- The display root of a widget (legacy `src/render.rs`): it may or
may not expose a renderer that can turn a scene node into a texture. -/
structure WidgetRoot (Node Tex : Type) where
  renderer : Option (Node → Option (F × F × F × F) → Option Tex)

/-- A widget, which may or may not be attached to a display root. -/
structure Widget (Node Tex : Type) where
  root : Option (WidgetRoot Node Tex)

/-- `rendernode_to_texture` (legacy src/render.rs:247): if the widget
has a root exposing a renderer, return `Ok` of whatever the renderer
produces; in every other case return `Ok(None)`. -/
def rendernode_to_texture {Node Tex : Type} (active_widget : Widget Node Tex)
    (node : Node) (viewport : Option Aabb) : Except String (Option Tex) :=
  let vp := viewport.map aabb_to_graphene_rect
  match active_widget.root with
  | some root =>
    match root.renderer with
    | some render_texture => .ok (render_texture node vp)
    | none => .ok none
  | none => .ok none

/-! ### Concrete inputs used by witnesses and counterexamples -/

/-- An environment in which every external collaborator succeeds and the
surface capture yields an empty buffer. -/
def envAll : RenderEnv :=
  { surfaceOk := fun _ _ => true, renderOk := true, capture := fun _ _ => [] }

/-- The bounds `[0,0]x[10,10]`. -/
def b10 : Aabb :=
  { minsX := F.fin 0, minsY := F.fin 0, maxsX := F.fin 10, maxsY := F.fin 10 }

/-- A concrete vector fragment. -/
def svg0 : Svg := { svg_data := "", bounds := b10 }

/-! ### Byte-order swap: involution and totality -/

/-- Applying the byte-order swap twice returns the original buffer, for
every buffer whatsoever (the trailing remainder is untouched by both
passes). -/
theorem convert_convert (w h w2 h2 : ℕ) :
    ∀ bytes : List UInt8,
      convert_image_bgra_to_rgba w h (convert_image_bgra_to_rgba w2 h2 bytes) = bytes
  | [] => rfl
  | [_] => rfl
  | [_, _] => rfl
  | [_, _, _] => rfl
  | _ :: _ :: _ :: _ :: rest => by
      simp [convert_image_bgra_to_rgba, convert_convert w h w2 h2 rest]

/-- C5: for every byte buffer whose length is divisible by 4, applying
the surface-to-canonical byte-order swap twice yields the original
buffer. -/
theorem convert_swap_involution (w h w2 h2 : ℕ) (bytes : List UInt8)
    (_hlen : bytes.length % 4 = 0) :
    convert_image_bgra_to_rgba w h (convert_image_bgra_to_rgba w2 h2 bytes) = bytes :=
  convert_convert w h w2 h2 bytes

/-- Witness for C5 at the concrete buffer `[5, 6, 7, 8]`. -/
theorem convert_swap_involution_witness :
    ([5, 6, 7, 8] : List UInt8).length % 4 = 0 ∧
      convert_image_bgra_to_rgba 1 1 (convert_image_bgra_to_rgba 1 1 [5, 6, 7, 8]) =
        [5, 6, 7, 8] :=
  ⟨by decide, convert_swap_involution 1 1 1 1 [5, 6, 7, 8] (by decide)⟩

/-- The byte-order swap preserves the buffer length. -/
theorem convert_length (w h : ℕ) :
    ∀ bytes : List UInt8, (convert_image_bgra_to_rgba w h bytes).length = bytes.length
  | [] => rfl
  | [_] => rfl
  | [_, _] => rfl
  | [_, _, _] => rfl
  | _ :: _ :: _ :: _ :: rest => by
      simp [convert_image_bgra_to_rgba, convert_length w h rest]

/-- Within each complete 4-byte group, the bytes at offsets 1 and 3 are
unchanged by the swap. -/
theorem convert_group_offsets (w h : ℕ) :
    ∀ (bytes : List UInt8) (k : ℕ), 4 * k + 4 ≤ bytes.length →
      (convert_image_bgra_to_rgba w h bytes)[4 * k + 1]? = bytes[4 * k + 1]? ∧
      (convert_image_bgra_to_rgba w h bytes)[4 * k + 3]? = bytes[4 * k + 3]?
  | [], k, hk => by simp only [List.length_nil] at hk; omega
  | [_], k, hk => by simp only [List.length_cons, List.length_nil] at hk; omega
  | [_, _], k, hk => by simp only [List.length_cons, List.length_nil] at hk; omega
  | [_, _, _], k, hk => by simp only [List.length_cons, List.length_nil] at hk; omega
  | b :: g :: r :: a :: rest, 0, _ => by
      simp [convert_image_bgra_to_rgba]
  | b :: g :: r :: a :: rest, k + 1, hk => by
      have hr : 4 * k + 4 ≤ rest.length := by
        simp only [List.length_cons] at hk; omega
      have ih := convert_group_offsets w h rest k hr
      have e1 : 4 * (k + 1) + 1 = 4 * k + 1 + 1 + 1 + 1 + 1 := by ring
      have e3 : 4 * (k + 1) + 3 = 4 * k + 3 + 1 + 1 + 1 + 1 := by ring
      simp only [convert_image_bgra_to_rgba, e1, e3, List.getElem?_cons_succ]
      exact ih

/-- A trailing remainder of fewer than 4 bytes is unchanged by the
swap. -/
theorem convert_tail_offsets (w h : ℕ) :
    ∀ (bytes : List UInt8) (i : ℕ), 4 * (bytes.length / 4) ≤ i →
      (convert_image_bgra_to_rgba w h bytes)[i]? = bytes[i]?
  | [], _, _ => rfl
  | [_], _, _ => rfl
  | [_, _], _, _ => rfl
  | [_, _, _], _, _ => rfl
  | b :: g :: r :: a :: rest, i, hi => by
      simp only [List.length_cons] at hi
      have hdiv : (rest.length + 1 + 1 + 1 + 1) / 4 = rest.length / 4 + 1 := by omega
      rw [hdiv] at hi
      obtain ⟨j, rfl⟩ : ∃ j, i = j + 1 + 1 + 1 + 1 := ⟨i - 4, by omega⟩
      simp only [convert_image_bgra_to_rgba, List.getElem?_cons_succ]
      exact convert_tail_offsets w h rest j (by omega)

/-- C10: the surface-to-canonical byte-order swap is total for every
input byte vector: the output has the same length as the input, bytes
at offsets 1 and 3 within each complete 4-byte group are unchanged, and
any trailing remainder of fewer than 4 bytes is left unchanged. -/
theorem convert_total_structure (w h : ℕ) (bytes : List UInt8) :
    (convert_image_bgra_to_rgba w h bytes).length = bytes.length ∧
    (∀ k, 4 * k + 4 ≤ bytes.length →
      (convert_image_bgra_to_rgba w h bytes)[4 * k + 1]? = bytes[4 * k + 1]? ∧
      (convert_image_bgra_to_rgba w h bytes)[4 * k + 3]? = bytes[4 * k + 3]?) ∧
    (∀ i, 4 * (bytes.length / 4) ≤ i →
      (convert_image_bgra_to_rgba w h bytes)[i]? = bytes[i]?) :=
  ⟨convert_length w h bytes, convert_group_offsets w h bytes,
    convert_tail_offsets w h bytes⟩

/-- Witness for C10 at the concrete buffer `[10, 20, 30, 40, 50]`. -/
theorem convert_total_structure_witness :
    (convert_image_bgra_to_rgba 1 1 [10, 20, 30, 40, 50]).length = 5 ∧
      (convert_image_bgra_to_rgba 1 1 [10, 20, 30, 40, 50])[1]? = some 20 ∧
      (convert_image_bgra_to_rgba 1 1 [10, 20, 30, 40, 50])[4]? = some 50 :=
  ⟨((convert_total_structure 1 1 [10, 20, 30, 40, 50]).1).trans (by decide),
    (((convert_total_structure 1 1 [10, 20, 30, 40, 50]).2.1 0 (by decide)).1).trans
      (by decide),
    ((convert_total_structure 1 1 [10, 20, 30, 40, 50]).2.2 4 (by decide)).trans
      (by decide)⟩

/-! ### Merge: bounds union and markup concatenation -/

/-- NaN-ignoring minimum is associative. -/
theorem F.fmin_assoc (a b c : F) : F.fmin (F.fmin a b) c = F.fmin a (F.fmin b c) := by
  cases a <;> cases b <;> cases c <;> simp [F.fmin, min_assoc]

/-- NaN-ignoring maximum is associative. -/
theorem F.fmax_assoc (a b c : F) : F.fmax (F.fmax a b) c = F.fmax a (F.fmax b c) := by
  cases a <;> cases b <;> cases c <;> simp [F.fmax, max_assoc]

/-- The axis-aligned bounding union is associative. -/
theorem Aabb.merge_assoc (a b c : Aabb) : (a.merge b).merge c = a.merge (b.merge c) := by
  simp [Aabb.merge, F.fmin_assoc, F.fmax_assoc]

/-- The newline-separated concatenation of the markup of a list of
fragments, in iteration order. -/
def newline_concat : List Svg → String
  | [] => ""
  | o :: rest => "\n" ++ o.svg_data ++ newline_concat rest

/-- The markup produced by `merge` is the original markup followed by
the newline-separated markup of the merged fragments in order. -/
theorem merge_svg_data (xs : List Svg) :
    ∀ s : Svg, (s.merge xs).svg_data = s.svg_data ++ newline_concat xs := by
  induction xs with
  | nil => intro s; simp [Svg.merge, newline_concat]
  | cons x xs ih =>
    intro s
    have h1 : s.merge (x :: xs) =
        Svg.merge { svg_data := s.svg_data ++ "\n" ++ x.svg_data
                    bounds := s.bounds.merge x.bounds } xs := rfl
    rw [h1, ih]
    simp [newline_concat, String.append_assoc]

/-- C6: merging zero fragments is a no-op; the bounds union is
associative (so any grouping of a merge computes the same bounds), a
merge of a concatenated list equals the two successive merges, and the
resulting markup is the newline-separated concatenation of the
fragments' markup in the given iteration order. -/
theorem merge_grouping_and_markup :
    (∀ s : Svg, s.merge [] = s) ∧
    (∀ a b c : Aabb, (a.merge b).merge c = a.merge (b.merge c)) ∧
    (∀ (s : Svg) (xs ys : List Svg), s.merge (xs ++ ys) = (s.merge xs).merge ys) ∧
    (∀ (s : Svg) (xs : List Svg),
      (s.merge xs).svg_data = s.svg_data ++ newline_concat xs) :=
  ⟨fun _ => rfl, Aabb.merge_assoc,
    fun s xs ys => by simp [Svg.merge, List.foldl_append],
    fun s xs => merge_svg_data xs s⟩

/-! ### Simplify: bounds re-basing and failure atomicity -/

/-- Subtracting finite zero is the identity. -/
theorem F.sub_fin_zero (x : F) : x.sub (F.fin 0) = x := by
  cases x <;> simp [F.sub, F.add, F.neg]

/-- C7: for every VectorFragment on which `simplify()` succeeds, the
resulting bounds are origin-relative: the minimum corner becomes
`(0,0)` while the extents are preserved from the original bounds. -/
theorem simplify_rebases_bounds (remove_header : String → String)
    (wrap : String → Option Aabb → Option Aabb → Bool → String)
    (usvg_roundtrip : String → Option String) (s out : Svg)
    (h : Svg.simplify remove_header wrap usvg_roundtrip s = (out, true)) :
    out.bounds.minsX = F.fin 0 ∧ out.bounds.minsY = F.fin 0 ∧
      out.bounds.extentsX = s.bounds.extentsX ∧
      out.bounds.extentsY = s.bounds.extentsY := by
  simp only [Svg.simplify] at h
  split at h
  · simp at h
  · injection h with h1 h2
    subst h1
    simp [Aabb.extentsX, Aabb.extentsY, F.sub_fin_zero]

/-- A concrete fragment for the simplify witnesses. -/
def svgW : Svg :=
  { svg_data := "x"
    bounds := { minsX := F.fin 1, minsY := F.fin 2, maxsX := F.fin 4, maxsY := F.fin 6 } }

/-- Witness for C7: simplify `svgW` with external collaborators that
succeed; the resulting bounds start at the origin and keep the extents
`3 x 4`. -/
theorem simplify_rebases_bounds_witness :
    (Svg.simplify id (fun d _ _ _ => d) some svgW).1.bounds.minsX = F.fin 0 ∧
      (Svg.simplify id (fun d _ _ _ => d) some svgW).1.bounds.minsY = F.fin 0 ∧
      (Svg.simplify id (fun d _ _ _ => d) some svgW).1.bounds.extentsX =
        svgW.bounds.extentsX ∧
      (Svg.simplify id (fun d _ _ _ => d) some svgW).1.bounds.extentsY =
        svgW.bounds.extentsY :=
  simplify_rebases_bounds id (fun d _ _ _ => d) some svgW _ (by with_unfolding_all decide)

/-- C8: if `simplify()` fails, the fragment's markup string and bounds
are both unchanged (no partial mutation on failure). -/
theorem simplify_failure_no_mutation (remove_header : String → String)
    (wrap : String → Option Aabb → Option Aabb → Bool → String)
    (usvg_roundtrip : String → Option String) (s out : Svg)
    (h : Svg.simplify remove_header wrap usvg_roundtrip s = (out, false)) :
    out = s := by
  simp only [Svg.simplify] at h
  split at h
  · injection h with h1 h2
    exact h1.symm
  · injection h with h1 h2
    simp at h2

/-- Witness for C8: a failing parse leaves `svgW` unchanged. -/
theorem simplify_failure_no_mutation_witness :
    Svg.simplify id (fun d _ _ _ => d) (fun _ => none) svgW = (svgW, false) ∧
      svgW = svgW :=
  have h : Svg.simplify id (fun d _ _ _ => d) (fun _ => none) svgW = (svgW, false) := by
    with_unfolding_all decide
  ⟨h, simplify_failure_no_mutation id (fun d _ _ _ => d) (fun _ => none) svgW svgW h⟩

/-! ### Texture capture with no display root -/

/-- C9: for every scene node and viewport, capturing a region as a
texture with a widget that has no attached display root returns the
successful no-texture outcome, not an error. -/
theorem rendernode_to_texture_no_root {Node Tex : Type} (w : Widget Node Tex)
    (node : Node) (viewport : Option Aabb) (h : w.root = none) :
    rendernode_to_texture w node viewport = .ok none := by
  simp [rendernode_to_texture, h]

/-- Witness for C9 at a concrete root-less widget. -/
theorem rendernode_to_texture_no_root_witness :
    rendernode_to_texture (⟨none⟩ : Widget Unit Unit) () none = .ok none :=
  rendernode_to_texture_no_root _ _ _ rfl

/-! ### Image validation -/

/-- An image whose target rectangle has a NaN coordinate but whose
buffer length matches its 1x1 dimensions. -/
def imgNanRect : Image :=
  { data := [0, 0, 0, 0]
    rect := { minsX := F.nan, minsY := F.fin 0, maxsX := F.fin 1, maxsY := F.fin 1 }
    pixel_width := 1
    pixel_height := 1
    memory_format := .R8g8b8a8Premultiplied }

/-- An image with a valid rectangle, an empty buffer and dimensions
`2^30 x 1`, for which the wrapping `u32` product `4 * 2^30 * 1` equals
`0 = buffer length (mod 2^32)`. -/
def imgWrap : Image :=
  { data := []
    rect := { minsX := F.fin 0, minsY := F.fin 0, maxsX := F.fin 1, maxsY := F.fin 1 }
    pixel_width := 2 ^ 30
    pixel_height := 1
    memory_format := .R8g8b8a8Premultiplied }

/-- Counterexample for C3 as stated: `imgNanRect` has positive
dimensions and buffer length exactly `4 * width * height`, yet
`assert_valid` fails (the target rectangle's bounds are checked first);
and `imgWrap` has positive dimensions with buffer length different from
`4 * width * height`, yet `assert_valid` succeeds (the length check is
32-bit wrapping arithmetic). -/
theorem assert_valid_iff_cex :
    (0 < imgNanRect.pixel_width ∧ 0 < imgNanRect.pixel_height ∧
      imgNanRect.data.length = 4 * imgNanRect.pixel_width * imgNanRect.pixel_height ∧
      imgNanRect.assert_valid = false) ∧
    (0 < imgWrap.pixel_width ∧ 0 < imgWrap.pixel_height ∧
      imgWrap.data.length ≠ 4 * imgWrap.pixel_width * imgWrap.pixel_height ∧
      imgWrap.assert_valid = true) := by
  with_unfolding_all decide

/-- C3 amended: for every RasterImage with positive dimensions whose
target rectangle bounds are valid, `validate()` succeeds iff the buffer
length is congruent to `4 * pixel_width * pixel_height` modulo `2^32`
(both sides of the source comparison are `u32` values). -/
theorem assert_valid_iff (img : Image) (hw : 0 < img.pixel_width)
    (hh : 0 < img.pixel_height) (hrect : img.rect.assert_validb = true) :
    img.assert_valid = true ↔
      img.data.length % 2 ^ 32 = 4 * img.pixel_width * img.pixel_height % 2 ^ 32 := by
  simp [Image.assert_valid, hrect, Nat.pos_iff_ne_zero.mp hw, Nat.pos_iff_ne_zero.mp hh]

/-- A valid 1x1 image with a 4-byte buffer. -/
def img4 : Image :=
  { data := [1, 2, 3, 4]
    rect := { minsX := F.fin 0, minsY := F.fin 0, maxsX := F.fin 1, maxsY := F.fin 1 }
    pixel_width := 1
    pixel_height := 1
    memory_format := .R8g8b8a8Premultiplied }

/-- Witness for the amended C3 at the concrete image `img4`. -/
theorem assert_valid_iff_witness :
    0 < img4.pixel_width ∧ 0 < img4.pixel_height ∧
      img4.rect.assert_validb = true ∧
      (img4.assert_valid = true ↔
        img4.data.length % 2 ^ 32 = 4 * img4.pixel_width * img4.pixel_height % 2 ^ 32) :=
  ⟨by decide, by decide, by with_unfolding_all decide,
    assert_valid_iff img4 (by decide) (by decide) (by with_unfolding_all decide)⟩

/-! ### Rasterization pipeline: dimensions and traced bounds -/

/-- The image produced for bounds `[0,0]x[10,10]` at scale 2 in the
all-succeeding environment: after normalization the rectangle is
`[-1,-1]x[11,11]` and the pixel dimensions are 24. -/
def img24 : Image :=
  { data := []
    rect := { minsX := F.fin (-1), minsY := F.fin (-1), maxsX := F.fin 11, maxsY := F.fin 11 }
    pixel_width := 24
    pixel_height := 24
    memory_format := .R8g8b8a8Premultiplied }

/-- Counterexample for C1 as stated: rasterizing with bounds
`[0,0]x[10,10]` at scale factor 2 succeeds and produces pixel
dimensions 24, not 22 (the extents are 10, ceiled to 10, expanded by
the 1-unit margin on both sides to 12, and `12 * 2 = 24`). -/
theorem gen_b10_scale2_cex :
    (Image.gen_image_from_svg envAll svg0 b10 (F.fin 2)).result = .ok img24 ∧
      img24.pixel_width ≠ 22 ∧ img24.pixel_height ≠ 22 := by
  with_unfolding_all decide

/-- C1 amended: for every VectorFragment and every environment, if
rasterizing with bounds `[0,0]x[10,10]` at scale factor 2 succeeds,
the produced RasterImage has `pixel_width = pixel_height = 24`
(extents 10 ceiled to 10, plus the 1-unit margin on both sides = 12,
times 2). -/
theorem gen_b10_scale2_dims (env : RenderEnv) (svg : Svg) (img : Image)
    (h : (Image.gen_image_from_svg env svg b10 (F.fin 2)).result = .ok img) :
    img.pixel_width = 24 ∧ img.pixel_height = 24 := by
  have hv : (normalize_bounds b10).assert_validb = true := by
    with_unfolding_all decide
  have hw : scaled_width (normalize_bounds b10) (F.fin 2) = 24 := by
    with_unfolding_all decide
  have hh : scaled_height (normalize_bounds b10) (F.fin 2) = 24 := by
    with_unfolding_all decide
  simp only [Image.gen_image_from_svg, hv, if_true] at h
  split at h
  · split at h
    · simp only [Except.ok.injEq] at h
      subst h
      exact ⟨hw, hh⟩
    · simp at h
  · simp at h

/-- Witness for the amended C1 in the all-succeeding environment. -/
theorem gen_b10_scale2_dims_witness :
    (Image.gen_image_from_svg envAll svg0 b10 (F.fin 2)).result = .ok img24 ∧
      img24.pixel_width = 24 ∧ img24.pixel_height = 24 :=
  have h : (Image.gen_image_from_svg envAll svg0 b10 (F.fin 2)).result = .ok img24 := by
    with_unfolding_all decide
  ⟨h, gen_b10_scale2_dims envAll svg0 img24 h⟩

/-- Counterexample for C2 as stated: for bounds `[0,0]x[10,10]` the
root-element wrap receives the original bounds `[0,0]x[10,10]`, while
the renderer is targeted at the normalized rectangle
`(-1, -1, 12, 12)`; the normalized bounds differ from the bounds the
wrap was sized to. -/
theorem gen_wrap_bounds_cex :
    (Image.gen_image_from_svg envAll svg0 b10 (F.fin 2)).wrapArgBounds = some b10 ∧
      (Image.gen_image_from_svg envAll svg0 b10 (F.fin 2)).wrapArgViewbox = some b10 ∧
      (Image.gen_image_from_svg envAll svg0 b10 (F.fin 2)).renderTarget =
        some (F.fin (-1), F.fin (-1), F.fin 12, F.fin 12) ∧
      normalize_bounds b10 ≠ b10 := by
  with_unfolding_all decide

/-- C2 amended: when rasterizing a VectorFragment, the fragment is
wrapped in a root element sized to the ORIGINAL (pre-normalization)
bounds — the wrap happens before the bounds are normalized — while the
external renderer is targeted at the normalized bounds rectangle. -/
theorem gen_wrap_original_target_normalized (env : RenderEnv) (svg : Svg)
    (bounds : Aabb) (scale : F) :
    (Image.gen_image_from_svg env svg bounds scale).wrapArgBounds = some bounds ∧
    (Image.gen_image_from_svg env svg bounds scale).wrapArgViewbox = some bounds ∧
    ∀ rect, (Image.gen_image_from_svg env svg bounds scale).renderTarget = some rect →
      rect = ((normalize_bounds bounds).minsX, (normalize_bounds bounds).minsY,
        (normalize_bounds bounds).extentsX, (normalize_bounds bounds).extentsY) := by
  simp only [Image.gen_image_from_svg]
  split
  · split
    · split
      · exact ⟨rfl, rfl, fun rect hr => by injection hr with h1; exact h1.symm⟩
      · exact ⟨rfl, rfl, fun rect hr => by injection hr with h1; exact h1.symm⟩
    · exact ⟨rfl, rfl, fun rect hr => Option.noConfusion hr⟩
  · exact ⟨rfl, rfl, fun rect hr => Option.noConfusion hr⟩

/-- Witness for the amended C2 at bounds `[0,0]x[10,10]`, scale 2. -/
theorem gen_wrap_original_target_normalized_witness :
    (Image.gen_image_from_svg envAll svg0 b10 (F.fin 2)).wrapArgBounds = some b10 ∧
      (F.fin (-1), F.fin (-1), F.fin 12, F.fin 12) =
        ((normalize_bounds b10).minsX, (normalize_bounds b10).minsY,
          (normalize_bounds b10).extentsX, (normalize_bounds b10).extentsY) :=
  ⟨(gen_wrap_original_target_normalized envAll svg0 b10 (F.fin 2)).1,
    (gen_wrap_original_target_normalized envAll svg0 b10 (F.fin 2)).2.2
      (F.fin (-1), F.fin (-1), F.fin 12, F.fin 12) (by with_unfolding_all decide)⟩

/-! ### Degenerate and non-finite rasterization bounds -/

/-- Whether every coordinate of the box is finite. -/
def finiteAabb (b : Aabb) : Bool :=
  b.minsX.isFinite && b.minsY.isFinite && b.maxsX.isFinite && b.maxsY.isFinite

/-- For every finite input box, both extents of the normalized bounds
are finite rationals that are at least 2 (outward integer rounding
plus the 1-unit margin on both sides). -/
theorem norm_extent_ge_two (a b c d : ℚ) :
    ∃ e1 e2 : ℚ,
      (normalize_bounds (Aabb.mk (.fin a) (.fin b) (.fin c) (.fin d))).extentsX = F.fin e1 ∧
      (normalize_bounds (Aabb.mk (.fin a) (.fin b) (.fin c) (.fin d))).extentsY = F.fin e2 ∧
      2 ≤ e1 ∧ 2 ≤ e2 := by
  simp only [normalize_bounds, Aabb.ensure_positive]
  split <;> split <;>
  · simp only [F.lt, decide_eq_true_eq] at *
    simp only [Aabb.ceil, Aabb.loosened, Aabb.extentsX, Aabb.extentsY, F.floor, F.ceil,
      F.add, F.sub, F.neg]
    refine ⟨_, _, rfl, rfl, ?_, ?_⟩ <;>
      linarith [Int.floor_le a, Int.le_ceil a, Int.floor_le b, Int.le_ceil b,
        Int.floor_le c, Int.le_ceil c, Int.floor_le d, Int.le_ceil d]

/-- An extent of at least 2 scaled by a factor of at least 1/4, rounded
and cast to `u32`, is at least 1. -/
theorem toU32_round_ge_one (e q : ℚ) (he : 2 ≤ e) (hq : 1/4 ≤ q) :
    1 ≤ ((F.fin e).mul (F.fin q)).round.toU32 := by
  have hx : (1:ℚ)/2 ≤ e * q := by nlinarith
  have hr : 1 ≤ roundQ (e * q) := by
    unfold roundQ
    rw [if_pos (by linarith)]
    exact Int.le_floor.mpr (by push_cast; linarith)
  simp only [F.mul, F.round, F.toU32]
  rw [if_neg (by push_neg; exact_mod_cast (by omega : (0:ℤ) < roundQ (e * q)))]
  refine Nat.le_min.mpr ⟨?_, by norm_num⟩
  rw [Int.floor_intCast]
  omega

/-- Flooring then subtracting 1 preserves finiteness exactly. -/
theorem F.isFinite_floor_sub_one (x : F) : ((x.floor).sub (F.fin 1)).isFinite = x.isFinite := by
  cases x <;> rfl

/-- Ceiling then adding 1 preserves finiteness exactly. -/
theorem F.isFinite_ceil_add_one (x : F) : ((x.ceil).add (F.fin 1)).isFinite = x.isFinite := by
  cases x <;> rfl

/-- The minimum x coordinate of the normalized bounds. -/
theorem norm_minsX (b : Aabb) :
    (normalize_bounds b).minsX = (b.ensure_positive.minsX.floor).sub (F.fin 1) := rfl

/-- The minimum y coordinate of the normalized bounds. -/
theorem norm_minsY (b : Aabb) :
    (normalize_bounds b).minsY = (b.ensure_positive.minsY.floor).sub (F.fin 1) := rfl

/-- The maximum x coordinate of the normalized bounds. -/
theorem norm_maxsX (b : Aabb) :
    (normalize_bounds b).maxsX = (b.ensure_positive.maxsX.ceil).add (F.fin 1) := rfl

/-- The maximum y coordinate of the normalized bounds. -/
theorem norm_maxsY (b : Aabb) :
    (normalize_bounds b).maxsY = (b.ensure_positive.maxsY.ceil).add (F.fin 1) := rfl

/-- `ensure_positive` keeps or swaps the x coordinate pair. -/
theorem ens_X (b : Aabb) :
    (b.ensure_positive.minsX = b.minsX ∧ b.ensure_positive.maxsX = b.maxsX) ∨
    (b.ensure_positive.minsX = b.maxsX ∧ b.ensure_positive.maxsX = b.minsX) := by
  simp only [Aabb.ensure_positive]
  split <;> split <;> simp

/-- `ensure_positive` keeps or swaps the y coordinate pair. -/
theorem ens_Y (b : Aabb) :
    (b.ensure_positive.minsY = b.minsY ∧ b.ensure_positive.maxsY = b.maxsY) ∨
    (b.ensure_positive.minsY = b.maxsY ∧ b.ensure_positive.maxsY = b.minsY) := by
  simp only [Aabb.ensure_positive]
  split <;> split <;> simp

/-- If any coordinate of the input box is non-finite, bounds validation
fails after normalization. -/
theorem norm_validb_false (b : Aabb) (h : finiteAabb b = false) :
    (normalize_bounds b).assert_validb = false := by
  simp only [finiteAabb, Bool.and_eq_false_iff] at h
  rcases ens_X b with ⟨e1, e2⟩ | ⟨e1, e2⟩ <;> rcases ens_Y b with ⟨e3, e4⟩ | ⟨e3, e4⟩ <;>
    rcases h with ((h | h) | h) | h <;>
      simp [Aabb.assert_validb, norm_minsX, norm_minsY, norm_maxsX, norm_maxsY,
        F.isFinite_floor_sub_one, F.isFinite_ceil_add_one, e1, e2, e3, e4, h]

/-- With a non-finite bound, `gen_image_from_svg` fails with the
invalid-bounds error. -/
theorem gen_nonfinite_invalid (env : RenderEnv) (svg : Svg) (bq : Aabb) (scale : F)
    (h : finiteAabb bq = false) :
    (Image.gen_image_from_svg env svg bq scale).result = .error .invalidBounds := by
  have hv := norm_validb_false bq h
  simp [Image.gen_image_from_svg, hv]

/-- Bounds with extent 0 on the x axis. -/
def bdeg : Aabb := { minsX := F.fin 0, minsY := F.fin 0, maxsX := F.fin 0, maxsY := F.fin 5 }

/-- Bounds with a NaN coordinate. -/
def bnan : Aabb := { minsX := F.nan, minsY := F.fin 0, maxsX := F.fin 1, maxsY := F.fin 1 }

/-- Counterexample for C4 as stated: `bdeg` has extent 0 on the x axis
and finite bounds, yet at the (positive) scale factor `1/10` the
normalized bounds yield pixel width 0 — so without a lower bound on
the scale factor the pixel dimensions CAN be zero. -/
theorem degenerate_small_scale_cex :
    bdeg.extentsX = F.fin 0 ∧ finiteAabb bdeg = true ∧
      scaled_width (normalize_bounds bdeg) (F.fin (1/10)) = 0 := by
  with_unfolding_all decide

/-- C4 amended: for every rasterization input with finite bounds that
have extent 0 on some axis, the normalization (ceiling plus 1-unit
margin) yields pixel dimensions that are nonzero on both axes PROVIDED
the scale factor is at least 1/4; and for every input with a non-finite
bound, rasterization fails with the invalid-bounds error. -/
theorem degenerate_and_nonfinite_bounds :
    (∀ (a b c d q : ℚ),
      ((Aabb.mk (.fin a) (.fin b) (.fin c) (.fin d)).extentsX = F.fin 0 ∨
        (Aabb.mk (.fin a) (.fin b) (.fin c) (.fin d)).extentsY = F.fin 0) →
      1/4 ≤ q →
      1 ≤ scaled_width (normalize_bounds (Aabb.mk (.fin a) (.fin b) (.fin c) (.fin d)))
            (F.fin q) ∧
      1 ≤ scaled_height (normalize_bounds (Aabb.mk (.fin a) (.fin b) (.fin c) (.fin d)))
            (F.fin q)) ∧
    (∀ (env : RenderEnv) (svg : Svg) (bq : Aabb) (scale : F), finiteAabb bq = false →
      (Image.gen_image_from_svg env svg bq scale).result = .error .invalidBounds) := by
  constructor
  · intro a b c d q _ hq
    obtain ⟨e1, e2, hX, hY, he1, he2⟩ := norm_extent_ge_two a b c d
    unfold scaled_width scaled_height
    rw [hX, hY]
    exact ⟨toU32_round_ge_one e1 q he1 hq, toU32_round_ge_one e2 q he2 hq⟩
  · exact gen_nonfinite_invalid

/-- Witness for the amended C4: the degenerate box `bdeg` at scale 1
gives nonzero pixel dimensions, and the NaN box `bnan` makes
rasterization fail with the invalid-bounds error. -/
theorem degenerate_and_nonfinite_bounds_witness :
    (1 ≤ scaled_width (normalize_bounds bdeg) (F.fin 1) ∧
      1 ≤ scaled_height (normalize_bounds bdeg) (F.fin 1)) ∧
    (Image.gen_image_from_svg envAll svg0 bnan (F.fin 2)).result = .error .invalidBounds :=
  ⟨degenerate_and_nonfinite_bounds.1 0 0 0 5 1 (Or.inl (by with_unfolding_all decide))
      (by norm_num),
    degenerate_and_nonfinite_bounds.2 envAll svg0 bnan (F.fin 2) (by decide)⟩
